import Mathlib

/-!
# mail-auth crypto layer: a shallow embedding with verified claims

This file embeds the core of the `mail-auth` library's cryptographic message
authentication engine (`src/common/crypto.rs` and `src/lib.rs`) as executable
Lean definitions and settles a list of specification claims about it.

Conventions:
* Bytes are `Nat` values (meaningful when `< 256`); byte strings are `List Nat`.
* Machine integers use explicit `% 2 ^ w` arithmetic where overflow matters.
* External crates (`rsa` DER parsers, `ed25519_dalek`) that the source calls
  into are modelled either concretely (RSA-PKCS#1 v1.5 over modular
  exponentiation, SHA-1/SHA-256 implemented in full) or as explicit function
  parameters (Ed25519 point arithmetic, DER decoding), so that the theorems
  capture exactly the glue logic the repository contributes.
-/

namespace MailAuth

/-! ## SHA-1 and SHA-256 over byte lists

The `sha1` and `sha2` crates used by `src/common/crypto.rs` are modelled by
full implementations of the two hash functions over `List Nat` bytes. -/

/-- Truncate to a 32-bit word. -/
def w32 (x : Nat) : Nat := x % 4294967296

/-- Left-rotation of a 32-bit word, expressed arithmetically. -/
def rotl32 (x n : Nat) : Nat := w32 (x * 2 ^ n + x / 2 ^ (32 - n))

/-- Right-rotation of a 32-bit word. -/
def rotr32 (x n : Nat) : Nat := rotl32 x (32 - n)

/-- Bitwise complement of a 32-bit word. -/
def not32 (x : Nat) : Nat := 4294967295 - x % 4294967296

/-- Big-endian serialization of a 32-bit word into four bytes. -/
def wordBytes (x : Nat) : List Nat :=
  [x / 16777216 % 256, x / 65536 % 256, x / 256 % 256, x % 256]

/-- Merkle–Damgård padding shared by SHA-1 and SHA-256: append `128`, zero
bytes, and the 64-bit big-endian bit length, to a multiple of 64 bytes. -/
def shaPad (msg : List Nat) : List Nat :=
  let L := msg.length
  let zeros := (64 - (L + 9) % 64) % 64
  msg ++ [128] ++ List.replicate zeros 0 ++
    [ (8 * L) / 2 ^ 56 % 256, (8 * L) / 2 ^ 48 % 256, (8 * L) / 2 ^ 40 % 256,
      (8 * L) / 2 ^ 32 % 256, (8 * L) / 2 ^ 24 % 256, (8 * L) / 2 ^ 16 % 256,
      (8 * L) / 2 ^ 8 % 256, (8 * L) % 256 ]

/-- Split a byte list into 64-byte chunks (fuel-driven so it reduces in the
kernel). -/
def chunks64Aux : Nat → List Nat → List (List Nat)
  | 0, _ => []
  | _, [] => []
  | fuel + 1, l => l.take 64 :: chunks64Aux fuel (l.drop 64)

def chunks64 (l : List Nat) : List (List Nat) := chunks64Aux (l.length + 1) l

/-- Split a 64-byte chunk into sixteen big-endian 32-bit words. -/
def chunkWordsAux : Nat → List Nat → List Nat
  | 0, _ => []
  | _, [] => []
  | fuel + 1, l =>
    (l.getD 0 0 * 16777216 + l.getD 1 0 * 65536 + l.getD 2 0 * 256 + l.getD 3 0)
      :: chunkWordsAux fuel (l.drop 4)

def chunkWords (l : List Nat) : List Nat := chunkWordsAux 16 l

/-! ### SHA-256 -/

def sha256Sigma0 (x : Nat) : Nat := rotr32 x 7 ^^^ rotr32 x 18 ^^^ (x % 4294967296) / 2 ^ 3
def sha256Sigma1 (x : Nat) : Nat := rotr32 x 17 ^^^ rotr32 x 19 ^^^ (x % 4294967296) / 2 ^ 10
def sha256BigSigma0 (x : Nat) : Nat := rotr32 x 2 ^^^ rotr32 x 13 ^^^ rotr32 x 22
def sha256BigSigma1 (x : Nat) : Nat := rotr32 x 6 ^^^ rotr32 x 11 ^^^ rotr32 x 25

def shaCh (x y z : Nat) : Nat := (x &&& y) ^^^ (not32 x &&& z)
def shaMaj (x y z : Nat) : Nat := (x &&& y) ^^^ (x &&& z) ^^^ (y &&& z)

/-- The 64 SHA-256 round constants. -/
def sha256K : List Nat :=
  [ 1116352408, 1899447441, 3049323471, 3921009573, 961987163, 1508970993,
    2453635748, 2870763221, 3624381080, 310598401, 607225278, 1426881987,
    1925078388, 2162078206, 2614888103, 3248222580, 3835390401, 4022224774,
    264347078, 604807628, 770255983, 1249150122, 1555081692, 1996064986,
    2554220882, 2821834349, 2952996808, 3210313671, 3336571891, 3584528711,
    113926993, 338241895, 666307205, 773529912, 1294757372, 1396182291,
    1695183700, 1986661051, 2177026350, 2456956037, 2730485921, 2820302411,
    3259730800, 3345764771, 3516065817, 3600352804, 4094571909, 275423344,
    430227734, 506948616, 659060556, 883997877, 958139571, 1322822218,
    1537002063, 1747873779, 1955562222, 2024104815, 2227730452, 2361852424,
    2428436474, 2756734187, 3204031479, 3329325298 ]

/-- Message-schedule extension for SHA-256, over the reversed accumulated
word list (head = most recent word). -/
def sha256Extend : Nat → List Nat → List Nat
  | 0, acc => acc
  | n + 1, acc =>
    sha256Extend n
      (w32 (sha256Sigma1 (acc.getD 1 0) + acc.getD 6 0 +
            sha256Sigma0 (acc.getD 14 0) + acc.getD 15 0) :: acc)

def sha256Schedule (ws : List Nat) : List Nat :=
  (sha256Extend 48 ws.reverse).reverse

/-- The eight-word SHA-256 working state. -/
structure Sha256State where
  h0 : Nat
  h1 : Nat
  h2 : Nat
  h3 : Nat
  h4 : Nat
  h5 : Nat
  h6 : Nat
  h7 : Nat

def sha256Init : Sha256State :=
  ⟨1779033703, 3144134277, 1013904242, 2773480762,
   1359893119, 2600822924, 528734635, 1541459225⟩

/-- One SHA-256 round. -/
def sha256Round (s : Sha256State) (kw : Nat × Nat) : Sha256State :=
  let t1 := w32 (s.h7 + sha256BigSigma1 s.h4 + shaCh s.h4 s.h5 s.h6 + kw.1 + kw.2)
  let t2 := w32 (sha256BigSigma0 s.h0 + shaMaj s.h0 s.h1 s.h2)
  ⟨w32 (t1 + t2), s.h0, s.h1, s.h2, w32 (s.h3 + t1), s.h4, s.h5, s.h6⟩

/-- Compress one 64-byte chunk into the state. -/
def sha256Compress (s : Sha256State) (chunk : List Nat) : Sha256State :=
  let ws := sha256Schedule (chunkWords chunk)
  let f := (sha256K.zip ws).foldl sha256Round s
  ⟨w32 (s.h0 + f.h0), w32 (s.h1 + f.h1), w32 (s.h2 + f.h2), w32 (s.h3 + f.h3),
   w32 (s.h4 + f.h4), w32 (s.h5 + f.h5), w32 (s.h6 + f.h6), w32 (s.h7 + f.h7)⟩

/-- SHA-256 of a byte list: 32 digest bytes. -/
def sha256 (msg : List Nat) : List Nat :=
  let s := (chunks64 (shaPad msg)).foldl sha256Compress sha256Init
  wordBytes s.h0 ++ wordBytes s.h1 ++ wordBytes s.h2 ++ wordBytes s.h3 ++
  wordBytes s.h4 ++ wordBytes s.h5 ++ wordBytes s.h6 ++ wordBytes s.h7

/-! ### SHA-1 -/

/-- Message-schedule extension for SHA-1, over the reversed accumulated list. -/
def sha1Extend : Nat → List Nat → List Nat
  | 0, acc => acc
  | n + 1, acc =>
    sha1Extend n
      (rotl32 (acc.getD 2 0 ^^^ acc.getD 7 0 ^^^ acc.getD 13 0 ^^^ acc.getD 15 0) 1
        :: acc)

def sha1Schedule (ws : List Nat) : List Nat :=
  (sha1Extend 64 ws.reverse).reverse

/-- The five-word SHA-1 working state. -/
structure Sha1State where
  h0 : Nat
  h1 : Nat
  h2 : Nat
  h3 : Nat
  h4 : Nat

def sha1Init : Sha1State :=
  ⟨1732584193, 4023233417, 2562383102, 271733878, 3285377520⟩

def sha1F (t b c d : Nat) : Nat :=
  if t < 20 then shaCh b c d
  else if t < 40 then b ^^^ c ^^^ d
  else if t < 60 then shaMaj b c d
  else b ^^^ c ^^^ d

def sha1K (t : Nat) : Nat :=
  if t < 20 then 1518500249
  else if t < 40 then 1859775393
  else if t < 60 then 2400959708
  else 3395469782

/-- One SHA-1 round. -/
def sha1Round (s : Sha1State) (tw : Nat × Nat) : Sha1State :=
  let tmp := w32 (rotl32 s.h0 5 + sha1F tw.1 s.h1 s.h2 s.h3 + s.h4 + sha1K tw.1 + tw.2)
  ⟨tmp, s.h0, rotl32 s.h1 30, s.h2, s.h3⟩

/-- Compress one 64-byte chunk into the SHA-1 state. -/
def sha1Compress (s : Sha1State) (chunk : List Nat) : Sha1State :=
  let ws := sha1Schedule (chunkWords chunk)
  let f := ((List.range 80).zip ws).foldl sha1Round s
  ⟨w32 (s.h0 + f.h0), w32 (s.h1 + f.h1), w32 (s.h2 + f.h2),
   w32 (s.h3 + f.h3), w32 (s.h4 + f.h4)⟩

/-- SHA-1 of a byte list: 20 digest bytes. -/
def sha1 (msg : List Nat) : List Nat :=
  let s := (chunks64 (shaPad msg)).foldl sha1Compress sha1Init
  wordBytes s.h0 ++ wordBytes s.h1 ++ wordBytes s.h2 ++ wordBytes s.h3 ++
  wordBytes s.h4

/-! ### Digest length and range lemmas -/

theorem wordBytes_length (x : Nat) : (wordBytes x).length = 4 := rfl

theorem sha256_length (msg : List Nat) : (sha256 msg).length = 32 := by
  simp [sha256, wordBytes]

theorem sha1_length (msg : List Nat) : (sha1 msg).length = 20 := by
  simp [sha1, wordBytes]

theorem wordBytes_lt (x : Nat) : ∀ b ∈ wordBytes x, b < 256 := by
  simp only [wordBytes, List.mem_cons, List.not_mem_nil, or_false]
  rintro b (rfl | rfl | rfl | rfl) <;> exact Nat.mod_lt _ (by norm_num)

theorem sha256_lt (msg : List Nat) : ∀ b ∈ sha256 msg, b < 256 := by
  simp only [sha256, List.mem_append]
  rintro b (((((((h | h) | h) | h) | h) | h) | h) | h) <;> exact wordBytes_lt _ _ h

theorem sha1_lt (msg : List Nat) : ∀ b ∈ sha1 msg, b < 256 := by
  simp only [sha1, List.mem_append]
  rintro b ((((h | h) | h) | h) | h) <;> exact wordBytes_lt _ _ h

/-! ## Hash abstraction (`src/common/crypto.rs`)

`HashAlgorithm`, `HashOutput`, the streaming `HashContext`s and the
`Algorithm` tag are translated directly from `src/common/crypto.rs`. -/

/-- `enum HashAlgorithm { Sha1, Sha256 }` from `crypto.rs`. -/
inductive HashAlgorithm where
  | Sha1
  | Sha256
deriving DecidableEq, Repr

/-- `enum HashOutput` from `crypto.rs`: a tagged union over the two digests. -/
inductive HashOutput where
  | Sha1 (out : List Nat)
  | Sha256 (out : List Nat)
deriving DecidableEq, Repr

/-- `impl AsRef<[u8]> for HashOutput`. -/
def HashOutput.as_ref : HashOutput → List Nat
  | .Sha1 out => out
  | .Sha256 out => out

/-- `HashAlgorithm::hash`: one-shot digest, tagging the output. -/
def HashAlgorithm.hash : HashAlgorithm → List Nat → HashOutput
  | .Sha1, data => .Sha1 (sha1 data)
  | .Sha256, data => .Sha256 (sha256 data)

/-- The streaming hash contexts (`sha1::Sha1` / `sha2::Sha256` values
implementing `Writer` and `HashContext`): each accumulates written bytes. -/
inductive HashContext where
  | sha1Ctx (acc : List Nat)
  | sha256Ctx (acc : List Nat)
deriving DecidableEq, Repr

/-- `Writer::write` on a hash context (`update`): append the bytes. -/
def HashContext.write : HashContext → List Nat → HashContext
  | .sha1Ctx acc, buf => .sha1Ctx (acc ++ buf)
  | .sha256Ctx acc, buf => .sha256Ctx (acc ++ buf)

/-- `HashContext::finish` (`finalize`): digest the accumulated bytes and tag. -/
def HashContext.finish : HashContext → HashOutput
  | .sha1Ctx acc => .Sha1 (sha1 acc)
  | .sha256Ctx acc => .Sha256 (sha256 acc)

/-- `enum Algorithm { RsaSha1, RsaSha256, Ed25519Sha256 }` from `crypto.rs`. -/
inductive Algorithm where
  | RsaSha1
  | RsaSha256
  | Ed25519Sha256
deriving DecidableEq, Repr

/-- The hash algorithm implied by an algorithm identifier (SHA-1 for
`rsa-sha1`, SHA-256 for `rsa-sha256` and `ed25519-sha256`). -/
def Algorithm.hashAlgorithm : Algorithm → HashAlgorithm
  | .RsaSha1 => .Sha1
  | .RsaSha256 => .Sha256
  | .Ed25519Sha256 => .Sha256

/-! ## Canonicalization

The `dkim::Canonicalization` type and its `hash_headers` method live in the
repository outside the provided sources; only their use from
`crypto.rs` is visible. They are modelled from the spec below. -/

/-- Modelled from the spec: the missing `dkim::Canonicalization` enum — "header
canonicalization and body canonicalization (`simple`|`relaxed`)". -/
inductive Canonicalization where
  | Relaxed
  | Simple
deriving DecidableEq, Repr

/-- A byte is WSP (space or horizontal tab). -/
def isWSP (b : Nat) : Bool := b = 32 || b = 9

/-- ASCII lowercase of a byte. -/
def lowerByte (b : Nat) : Nat := if 65 ≤ b ∧ b ≤ 90 then b + 32 else b

/-- Normalize lone LF line endings to CRLF. -/
def normalizeCrlf : List Nat → List Nat
  | [] => []
  | 13 :: 10 :: rest => 13 :: 10 :: normalizeCrlf rest
  | 10 :: rest => 13 :: 10 :: normalizeCrlf rest
  | b :: rest => b :: normalizeCrlf rest

/-- Collapse runs of WSP to a single SP; a pending run is emitted as one SP
only before the next non-WSP byte, so trailing WSP is removed. -/
def collapseWspAux : Bool → List Nat → List Nat
  | _, [] => []
  | pending, b :: rest =>
    if isWSP b then collapseWspAux true rest
    else if pending then 32 :: b :: collapseWspAux false rest
    else b :: collapseWspAux false rest

/-- Modelled from the spec (§4.2, relaxed header canonicalization): unfold
(drop CR/LF), collapse WSP runs to one SP, strip leading and trailing WSP. -/
def relaxedValue (v : List Nat) : List Nat :=
  collapseWspAux false ((v.filter (fun b => b ≠ 13 && b ≠ 10)).dropWhile isWSP)

/-- Modelled from the spec (§4.2): the canonical byte stream of one header.
Simple passes `name:value` through unmodified with CRLF endings normalized;
relaxed lowercases the name, collapses the value and terminates with CRLF. -/
def canonicalHeader : Canonicalization → List Nat × List Nat → List Nat
  | .Simple, (name, value) => name ++ [58] ++ normalizeCrlf value
  | .Relaxed, (name, value) =>
    name.map lowerByte ++ [58] ++ relaxedValue value ++ [13, 10]

/-- Modelled from the spec: the canonical byte stream of a header sequence. -/
def canonicalizeHeaders (c : Canonicalization) (hs : List (List Nat × List Nat)) :
    List Nat :=
  (hs.map (canonicalHeader c)).flatten

/-- `Canonicalization::hash_headers::<T>`: hash the canonicalized header
stream with the chosen hash algorithm (modelled from the spec; the generic
hash parameter `T` becomes an explicit `HashAlgorithm`). -/
def Canonicalization.hash_headers (alg : HashAlgorithm) (c : Canonicalization)
    (headers : List (List Nat × List Nat)) : HashOutput :=
  alg.hash (canonicalizeHeaders c headers)

/-! ## Errors (`src/lib.rs`)

`enum Error` with its payloads; `ResponseCode` is the external
`hickory_resolver` response-code type, modelled by its numeric code. -/

/-- The external `hickory_resolver` `ResponseCode`, modelled by its code. -/
structure ResponseCode where
  code : Nat
deriving DecidableEq, Repr

/-- `enum Error` from `src/lib.rs`. -/
inductive Error where
  | ParseError
  | MissingParameters
  | NoHeadersFound
  | CryptoError (msg : String)
  | Io (msg : String)
  | Base64
  | UnsupportedVersion
  | UnsupportedAlgorithm
  | UnsupportedCanonicalization
  | UnsupportedKeyType
  | FailedBodyHashMatch
  | FailedVerification
  | FailedAuidMatch
  | RevokedPublicKey
  | IncompatibleAlgorithms
  | SignatureExpired
  | SignatureLength
  | DnsError (msg : String)
  | DnsRecordNotFound (code : ResponseCode)
  | ArcChainTooLong
  | ArcInvalidInstance (i : Nat)
  | ArcInvalidCV
  | ArcHasHeaderTag
  | ArcBrokenChain
  | NotAligned
  | InvalidRecordType
deriving DecidableEq, Repr

/-- `impl Display for Error` from `src/lib.rs`: the human-readable message of
each variant (the external response code renders by its numeric code). -/
def Error.toMessage : Error → String
  | .ParseError => "Parse error"
  | .MissingParameters => "Missing parameters"
  | .NoHeadersFound => "No headers found"
  | .CryptoError msg => "Cryptography layer error: " ++ msg
  | .Io msg => "I/O error: " ++ msg
  | .Base64 => "Base64 encode or decode error."
  | .UnsupportedVersion => "Unsupported version in DKIM Signature"
  | .UnsupportedAlgorithm => "Unsupported algorithm in DKIM Signature"
  | .UnsupportedCanonicalization => "Unsupported canonicalization method in DKIM Signature"
  | .UnsupportedKeyType => "Unsupported key type in DKIM DNS record"
  | .FailedBodyHashMatch => "Calculated body hash does not match signature hash"
  | .FailedVerification => "Signature verification failed"
  | .FailedAuidMatch => "AUID does not match domain name"
  | .RevokedPublicKey => "Public key for this signature has been revoked"
  | .IncompatibleAlgorithms => "Incompatible algorithms used in signature and DKIM DNS record"
  | .SignatureExpired => "Signature expired"
  | .SignatureLength => "Insecure 'l=' tag found in Signature"
  | .DnsError msg => "DNS resolution error: " ++ msg
  | .DnsRecordNotFound code => "DNS record not found: " ++ toString code.code
  | .ArcChainTooLong => "Too many ARC headers"
  | .ArcInvalidInstance i => "Invalid 'i=" ++ toString i ++ "' value found in ARC header"
  | .ArcInvalidCV => "Invalid 'cv=' value found in ARC header"
  | .ArcHasHeaderTag => "Invalid 'h=' tag present in ARC-Seal"
  | .ArcBrokenChain => "Broken or missing ARC chain"
  | .NotAligned => "Policy not aligned"
  | .InvalidRecordType => "Invalid record"

/-! ## RSA with PKCS#1 v1.5 padding

The `rsa` crate called by `crypto.rs` is modelled concretely: octet-string
conversions, EMSA-PKCS1-v1_5 encoding with the standard DigestInfo preludes,
and the RSA permutation as modular exponentiation (fuel-driven binary
exponentiation so that it reduces in the kernel). -/

/-- Binary modular exponentiation, fuel-driven. Every branch reduces modulo
`n`, so the result is `< n` whenever `0 < n`. -/
def powModAux : Nat → Nat → Nat → Nat → Nat
  | 0, _, _, n => 1 % n
  | fuel + 1, b, e, n =>
    if e = 0 then 1 % n
    else
      let r := powModAux fuel (b * b % n) (e / 2) n
      if e % 2 = 1 then r * (b % n) % n else r

def powMod (b e n : Nat) : Nat := powModAux (e + 1) b e n

/-- Number of base-256 digits, fuel-driven. -/
def byteLengthAux : Nat → Nat → Nat
  | 0, _ => 0
  | fuel + 1, n => if n = 0 then 0 else byteLengthAux fuel (n / 256) + 1

/-- The byte length of a natural number (`0` has zero bytes). -/
def byteLength (n : Nat) : Nat := byteLengthAux n n

/-- I2OSP: big-endian serialization of `x` into exactly `k` bytes. -/
def i2osp : Nat → Nat → List Nat
  | _, 0 => []
  | x, k + 1 => i2osp (x / 256) k ++ [x % 256]

/-- OS2IP: big-endian byte list to a natural number. -/
def os2ip (bytes : List Nat) : Nat := bytes.foldl (fun a b => a * 256 + b) 0

/-- The ASN.1 DigestInfo prelude for SHA-1 used by
`PaddingScheme::new_pkcs1v15_sign::<sha1::Sha1>`. -/
def digestInfoSha1 : List Nat :=
  [48, 33, 48, 9, 6, 5, 43, 14, 3, 2, 26, 5,
   0, 4, 20]

/-- The ASN.1 DigestInfo prelude for SHA-256 used by
`PaddingScheme::new_pkcs1v15_sign::<sha2::Sha256>`. -/
def digestInfoSha256 : List Nat :=
  [48, 49, 48, 13, 6, 9, 96, 134, 72, 1, 101, 3,
   4, 2, 1, 5, 0, 4, 32]

/-- The EMSA-PKCS1-v1_5 encoded message
`00 01 FF..FF 00 || DigestInfo || digest`, of total length `k`. -/
def emsaBody (info digest : List Nat) (k : Nat) : List Nat :=
  [0, 1] ++ List.replicate (k - (info ++ digest).length - 3) 255 ++ [0] ++
    info ++ digest

/-- EMSA-PKCS1-v1_5 encoding; fails when the modulus is too short. -/
def emsaPkcs1v15 (info digest : List Nat) (k : Nat) : Option (List Nat) :=
  if (info ++ digest).length + 11 ≤ k then some (emsaBody info digest k) else none

/-- The private half of `rsa::RsaPrivateKey` needed for signing. -/
structure RsaKey where
  n : Nat
  d : Nat
deriving DecidableEq, Repr

/-- `pub(crate) struct RsaPublicKey` from `crypto.rs`, wrapping the `rsa`
crate's public key (modulus and public exponent). -/
structure RsaPublicKey where
  n : Nat
  e : Nat
deriving DecidableEq, Repr

/-- `rsa::RsaPrivateKey::sign` with `PaddingScheme::new_pkcs1v15_sign`: pad
the digest, apply the private RSA permutation, and serialize to the modulus
byte length. -/
def rsaSignPkcs1v15 (key : RsaKey) (info digest : List Nat) :
    Except Error (List Nat) :=
  let k := byteLength key.n
  match emsaPkcs1v15 info digest k with
  | none => .error (.CryptoError "message too long")
  | some em => .ok (i2osp (powMod (os2ip em) key.d key.n) k)

/-- `rsa::RsaPublicKey::verify` with `PaddingScheme::new_pkcs1v15_sign`:
check the signature length and range, apply the public RSA permutation and
compare against the expected encoded message. -/
def rsaVerifyPkcs1v15 (key : RsaPublicKey) (info digest sig : List Nat) : Bool :=
  let k := byteLength key.n
  if sig.length ≠ k then false
  else if key.n ≤ os2ip sig then false
  else
    match emsaPkcs1v15 info digest k with
    | none => false
    | some em => i2osp (powMod (os2ip sig) key.e key.n) k = em

/-! ## Ed25519 (external `ed25519_dalek` crate, as an explicit parameter)

The curve arithmetic is the crate's own; `crypto.rs` only routes bytes
through it. A primitive bundle stands for the crate so every theorem states
exactly which bytes the repository feeds it. -/

/-- The operations `crypto.rs` uses from `ed25519_dalek`:
`Keypair::sign`, `Signature::from_bytes`, `PublicKey::verify_strict` and
`PublicKey::from_bytes`. `parse` and `parsePublic` return the crate's error
message on malformed input. -/
structure Ed25519Prim where
  sign : List Nat → List Nat → List Nat → List Nat
  parse : List Nat → Except String (List Nat)
  verify_strict : List Nat → List Nat → List Nat → Bool
  parsePublic : List Nat → Except String (List Nat)

/-- `struct Ed25519Key`: an `ed25519_dalek::Keypair` (public and secret
key bytes, each validated by the crate's constructors). -/
structure Ed25519Key where
  publ : List Nat
  secret : List Nat
deriving DecidableEq, Repr

/-- `pub(crate) struct Ed25519PublicKey` from `crypto.rs`, wrapping the
parsed `ed25519_dalek::PublicKey`. -/
structure Ed25519PublicKey where
  key : List Nat
deriving DecidableEq, Repr

/-! ## Signing keys (`trait SigningKey` and its three impls) -/

/-- The three `SigningKey` implementations of `crypto.rs`:
`RsaKey<Sha1>`, `RsaKey<Sha256>` and `Ed25519Key`. -/
inductive SigningKey where
  | rsaSha1 (inner : RsaKey)
  | rsaSha256 (inner : RsaKey)
  | ed25519 (inner : Ed25519Key)
deriving DecidableEq, Repr

/-- `SigningKey::algorithm` of each impl. -/
def SigningKey.algorithm : SigningKey → Algorithm
  | .rsaSha1 _ => .RsaSha1
  | .rsaSha256 _ => .RsaSha256
  | .ed25519 _ => .Ed25519Sha256

/-- The associated `type Hasher` of each impl (`Sha1` for `RsaKey<Sha1>`,
`Sha256` for `RsaKey<Sha256>` and `Ed25519Key`). -/
def SigningKey.hasherAlg : SigningKey → HashAlgorithm
  | .rsaSha1 _ => .Sha1
  | .rsaSha256 _ => .Sha256
  | .ed25519 _ => .Sha256

/-- `SigningKey::hasher`: a fresh context of the associated hasher type. -/
def SigningKey.hasher : SigningKey → HashContext
  | .rsaSha1 _ => .sha1Ctx []
  | .rsaSha256 _ => .sha256Ctx []
  | .ed25519 _ => .sha256Ctx []

/-- `SigningKey::sign` of each impl: RSA keys pad `data.as_ref()` with the
PKCS#1 v1.5 DigestInfo of their hasher type and apply the private key;
`Ed25519Key` signs `data.as_ref()` with the dalek keypair. -/
def SigningKey.sign (prim : Ed25519Prim) :
    SigningKey → HashOutput → Except Error (List Nat)
  | .rsaSha1 key, data => rsaSignPkcs1v15 key digestInfoSha1 data.as_ref
  | .rsaSha256 key, data => rsaSignPkcs1v15 key digestInfoSha256 data.as_ref
  | .ed25519 key, data => .ok (prim.sign key.publ key.secret data.as_ref)

/-! ## Verifying keys (`trait VerifyingKey` and its two impls) -/

/-- `impl VerifyingKey for RsaPublicKey`: dispatch on the algorithm tag,
hash the canonicalized headers with the implied hash, verify with PKCS#1
v1.5; the Ed25519 tag is rejected before any hashing or verification. -/
def RsaPublicKey.verify (key : RsaPublicKey)
    (headers : List (List Nat × List Nat)) (signature : List Nat)
    (canonicalization : Canonicalization) (algorithm : Algorithm) :
    Except Error Unit :=
  match algorithm with
  | .RsaSha256 =>
    let hash := Canonicalization.hash_headers .Sha256 canonicalization headers
    if rsaVerifyPkcs1v15 key digestInfoSha256 hash.as_ref signature then .ok ()
    else .error .FailedVerification
  | .RsaSha1 =>
    let hash := Canonicalization.hash_headers .Sha1 canonicalization headers
    if rsaVerifyPkcs1v15 key digestInfoSha1 hash.as_ref signature then .ok ()
    else .error .FailedVerification
  | .Ed25519Sha256 => .error .IncompatibleAlgorithms

/-- `impl VerifyingKey for Ed25519PublicKey`: reject non-Ed25519 algorithm
tags, hash the canonicalized headers with SHA-256, parse the signature bytes
(malformed → `CryptoError`) and verify strictly over the digest
(failure → `FailedVerification`). -/
def Ed25519PublicKey.verify (prim : Ed25519Prim) (key : Ed25519PublicKey)
    (headers : List (List Nat × List Nat)) (signature : List Nat)
    (canonicalization : Canonicalization) (algorithm : Algorithm) :
    Except Error Unit :=
  match algorithm with
  | .Ed25519Sha256 =>
    let hash := Canonicalization.hash_headers .Sha256 canonicalization headers
    match prim.parse signature with
    | .error e => .error (.CryptoError e)
    | .ok s =>
      if prim.verify_strict key.key hash.as_ref s then .ok ()
      else .error .FailedVerification
  | _ => .error .IncompatibleAlgorithms

/-- `RsaPublicKey::verifying_key_from_bytes`: try SPKI public-key DER first,
fall back to PKCS#1 DER, and map the remaining error to `CryptoError`. The
two DER decoders of the `rsa` crate are explicit parameters. -/
def RsaPublicKey.verifying_key_from_bytes
    (spkiDecode pkcs1Decode : List Nat → Except String RsaPublicKey)
    (bytes : List Nat) : Except Error RsaPublicKey :=
  match spkiDecode bytes with
  | .ok key => .ok key
  | .error _ =>
    match pkcs1Decode bytes with
    | .ok key => .ok key
    | .error e => .error (.CryptoError e)

/-- `Ed25519PublicKey::verifying_key_from_bytes`: parse the raw 32-byte
public key with `ed25519_dalek::PublicKey::from_bytes`, mapping failure to
`CryptoError`. -/
def Ed25519PublicKey.verifying_key_from_bytes (prim : Ed25519Prim)
    (bytes : List Nat) : Except Error Ed25519PublicKey :=
  match prim.parsePublic bytes with
  | .ok key => .ok ⟨key⟩
  | .error e => .error (.CryptoError e)

/-! ## The resolver and its caches (`src/lib.rs`)

`struct Resolver` holds one LRU cache per record type. For the sharing
claims the caches are modelled as association lists of entries, the live
resolvers as a heap (`ResolverHeap`), and a handle as an index into it:
handles aliasing the same `Resolver` (through `&` or an `Arc`) carry the
same index. `impl Clone for Resolver` (lib.rs:630) rebuilds every cache
with `Mutex::new(self.cache_*.lock().clone())`, i.e. the clone receives a
by-value copy of each cache, which the model reproduces by allocating a
fresh heap cell holding copies. -/

/-- The cache contents of one live `Resolver`: TXT/MX/A/AAAA/PTR entries
(values reduced to an abstract `Nat` payload; PTR keys are IP addresses,
modelled as `Nat`). -/
structure ResolverCaches where
  cache_txt : List (String × Nat)
  cache_mx : List (String × Nat)
  cache_ipv4 : List (String × Nat)
  cache_ipv6 : List (String × Nat)
  cache_ptr : List (Nat × Nat)
deriving DecidableEq, Repr

def ResolverCaches.empty : ResolverCaches := ⟨[], [], [], [], []⟩

/-- The heap of live `Resolver` values; a handle is an index into it. -/
structure ResolverHeap where
  store : List ResolverCaches
deriving DecidableEq, Repr

/-- `impl Clone for Resolver`: allocate a new resolver whose caches are
by-value copies of the source's caches, and return its handle. -/
def cloneResolver (h : ResolverHeap) (r : Nat) : ResolverHeap × Nat :=
  (⟨h.store ++ [h.store.getD r ResolverCaches.empty]⟩, h.store.length)

/-- Insert a TXT cache entry through a handle (the cache `put` that a
verification performs after a DNS lookup). -/
def insertTxt (h : ResolverHeap) (r : Nat) (k : String) (v : Nat) : ResolverHeap :=
  ⟨h.store.set r
    (let c := h.store.getD r ResolverCaches.empty
     { c with cache_txt := (k, v) :: c.cache_txt })⟩

/-- Look a TXT cache entry up through a handle. -/
def getTxt (h : ResolverHeap) (r : Nat) (k : String) : Option Nat :=
  ((h.store.getD r ResolverCaches.empty).cache_txt.lookup k)

/-! ## The `pct` sampler (`src/lib.rs:612`)

`is_within_pct` reads the wall clock and a per-thread counter cell; the
embedding passes both explicitly and returns the updated counter. All `u64`
arithmetic wraps modulo `2 ^ 64`. -/

/-- `u64::wrapping_add`. -/
def wrappingAdd64 (a b : Nat) : Nat := (a + b) % 2 ^ 64

/-- `u64::wrapping_mul`. -/
def wrappingMul64 (a b : Nat) : Nat := (a * b) % 2 ^ 64

/-- `is_within_pct(pct)`: `secs` is the Unix wall-clock time in whole
seconds (already `0` when the clock precedes the epoch), `counter` the
per-thread cell's value before the call. Returns the sampling decision and
the cell's value after the call; the `||` short-circuits on `pct == 100`,
leaving the counter untouched, and otherwise `c.replace(c.get() + 1)`
yields the old value while storing the incremented one. -/
def is_within_pct (pct : Nat) (secs counter : Nat) : Bool × Nat :=
  if pct = 100 then (true, counter)
  else
    (decide (wrappingMul64 (wrappingAdd64 secs counter) 11400714819323198485 % 100 < pct),
     (counter + 1) % 2 ^ 64)

/-! ## Octet-string and modular-exponentiation lemmas -/

theorem i2osp_length (x k : Nat) : (i2osp x k).length = k := by
  induction k generalizing x with
  | zero => rfl
  | succ k ih => simp [i2osp, ih]

theorem os2ip_append (l : List Nat) (b : Nat) :
    os2ip (l ++ [b]) = os2ip l * 256 + b := by
  simp [os2ip, List.foldl_append]

theorem os2ip_i2osp (x k : Nat) (h : x < 256 ^ k) : os2ip (i2osp x k) = x := by
  induction k generalizing x with
  | zero =>
    interval_cases x
    rfl
  | succ k ih =>
    have hdiv : x / 256 < 256 ^ k := by
      rw [Nat.div_lt_iff_lt_mul (by norm_num)]
      calc x < 256 ^ (k + 1) := h
        _ = 256 ^ k * 256 := by ring
    rw [i2osp, os2ip_append, ih _ hdiv]
    omega

theorem i2osp_os2ip (bytes : List Nat) (h : ∀ b ∈ bytes, b < 256) :
    i2osp (os2ip bytes) bytes.length = bytes := by
  induction bytes using List.reverseRecOn with
  | nil => rfl
  | append_singleton l b ih =>
    have hb : b < 256 := h b (by simp)
    have hl : ∀ x ∈ l, x < 256 := fun x hx => h x (by simp [hx])
    rw [os2ip_append, List.length_append, List.length_singleton, i2osp]
    have h1 : (os2ip l * 256 + b) / 256 = os2ip l := by omega
    have h2 : (os2ip l * 256 + b) % 256 = b := by omega
    rw [h1, h2, ih hl]

theorem powModAux_lt (fuel b e n : Nat) (hn : 0 < n) : powModAux fuel b e n < n := by
  induction fuel generalizing b e with
  | zero => exact Nat.mod_lt _ hn
  | succ fuel ih =>
    rw [powModAux]
    split
    · exact Nat.mod_lt _ hn
    · split
      · exact Nat.mod_lt _ hn
      · exact ih _ _

theorem powMod_lt (b e n : Nat) (hn : 0 < n) : powMod b e n < n :=
  powModAux_lt _ _ _ _ hn

theorem byteLengthAux_bound (fuel : Nat) : ∀ n, n ≤ fuel → n < 256 ^ byteLengthAux fuel n := by
  induction fuel with
  | zero => intro n h; interval_cases n; simp [byteLengthAux]
  | succ fuel ih =>
    intro n h
    rw [byteLengthAux]
    split
    · simp_all
    · rename_i hne
      have hfuel : n / 256 ≤ fuel := by omega
      have := ih (n / 256) hfuel
      have : n < 256 ^ byteLengthAux fuel (n / 256) * 256 := by omega
      calc n < 256 ^ byteLengthAux fuel (n / 256) * 256 := this
        _ = 256 ^ (byteLengthAux fuel (n / 256) + 1) := by ring

theorem byteLength_bound (n : Nat) : n < 256 ^ byteLength n :=
  byteLengthAux_bound n n le_rfl

theorem byteLength_zero : byteLength 0 = 0 := rfl

theorem emsaBody_length (info digest : List Nat) (k : Nat)
    (h : (info ++ digest).length + 11 ≤ k) :
    (emsaBody info digest k).length = k := by
  simp only [emsaBody, List.length_append, List.length_replicate,
    List.length_cons, List.length_nil] at *
  omega

theorem emsaBody_lt (info digest : List Nat) (k : Nat)
    (hinfo : ∀ b ∈ info, b < 256) (hdig : ∀ b ∈ digest, b < 256) :
    ∀ b ∈ emsaBody info digest k, b < 256 := by
  intro b hb
  simp only [emsaBody, List.mem_append, List.mem_cons, List.mem_replicate,
    List.not_mem_nil, or_false] at hb
  rcases hb with ((((rfl | rfl) | ⟨-, rfl⟩) | rfl) | h) | h
  · omega
  · omega
  · omega
  · omega
  · exact hinfo b h
  · exact hdig b h

/-- RSA PKCS#1 v1.5 round trip: when the public key matches the private key,
the modulus is long enough, and the RSA permutation round-trips on the
encoded message (the `rsa` crate's correctness at this input), signing a
digest and verifying the produced signature succeeds. -/
theorem rsa_sign_verify (key : RsaKey) (p : RsaPublicKey) (info digest : List Nat)
    (hn : p.n = key.n)
    (hinfo : ∀ b ∈ info, b < 256) (hdig : ∀ b ∈ digest, b < 256)
    (hfit : (info ++ digest).length + 11 ≤ byteLength key.n)
    (hRT : powMod (powMod (os2ip (emsaBody info digest (byteLength key.n)))
             key.d key.n) p.e p.n
           = os2ip (emsaBody info digest (byteLength key.n))) :
    ∃ sig, rsaSignPkcs1v15 key info digest = .ok sig ∧
      rsaVerifyPkcs1v15 p info digest sig = true := by
  have hnpos : 0 < key.n := by
    rcases Nat.eq_zero_or_pos key.n with h0 | h
    · rw [h0, byteLength_zero] at hfit; simp at hfit
    · exact h
  set k := byteLength key.n with hk
  set em := emsaBody info digest k with hem
  set s := powMod (os2ip em) key.d key.n with hs
  refine ⟨i2osp s k, ?_, ?_⟩
  · rw [rsaSignPkcs1v15, emsaPkcs1v15, if_pos hfit]
  · have hslt : s < key.n := powMod_lt _ _ _ hnpos
    have hslt' : s < 256 ^ k := lt_of_lt_of_le hslt (le_of_lt (byteLength_bound key.n))
    have hos : os2ip (i2osp s k) = s := os2ip_i2osp s k hslt'
    rw [hn] at hRT
    have heq : i2osp (os2ip em) k = em := by
      have hlen : em.length = k := emsaBody_length info digest k hfit
      have := i2osp_os2ip em (emsaBody_lt info digest k hinfo hdig)
      rwa [hlen] at this
    rw [rsaVerifyPkcs1v15, hn, ← hk, i2osp_length, hos]
    rw [if_neg (by simp), if_neg (not_le.mpr hslt), emsaPkcs1v15, if_pos hfit]
    simp [hRT, heq, ← hem]

/-! ## Auxiliary definitions for the claims -/

/-- The hash algorithm of a streaming context. -/
def HashContext.alg : HashContext → HashAlgorithm
  | .sha1Ctx _ => .Sha1
  | .sha256Ctx _ => .Sha256

/-- Compose `SigningKey::sign` with a verification, propagating the signing
error: the shape of "verify(sign(M))". -/
def roundTrip (signed : Except Error (List Nat))
    (verifier : List Nat → Except Error Unit) : Except Error Unit :=
  match signed with
  | .ok sig => verifier sig
  | .error e => .error e

/-- A concrete stand-in for the `ed25519_dalek` primitive, used by witnesses:
a "signature" is the public key concatenated with the message, parsing
checks the 64-byte length, and strict verification recomputes it. -/
def toyEd25519 : Ed25519Prim where
  sign := fun publ _secret msg => publ ++ msg
  parse := fun bytes =>
    if bytes.length = 64 then .ok bytes else .error "signature error: Cannot use scalar with high-bit set"
  verify_strict := fun key msg s => s = key ++ msg
  parsePublic := fun bytes =>
    if bytes.length = 32 then .ok bytes else .error "An error occurred while parsing a public key"

/-! ## Claims -/

/-- C6: `HashAlgorithm::hash` with `Sha1` returns a `Sha1`-tagged output of
exactly 20 bytes and with `Sha256` a `Sha256`-tagged output of exactly 32
bytes, and `HashContext::finish` on a SHA-1 (resp. SHA-256) context yields a
`Sha1`-tagged 20-byte (resp. `Sha256`-tagged 32-byte) output. -/
theorem hash_output_sizes :
    (∀ data : List Nat, ∃ out, HashAlgorithm.hash .Sha1 data = .Sha1 out ∧
      out.length = 20 ∧ (HashAlgorithm.hash .Sha1 data).as_ref.length = 20) ∧
    (∀ data : List Nat, ∃ out, HashAlgorithm.hash .Sha256 data = .Sha256 out ∧
      out.length = 32 ∧ (HashAlgorithm.hash .Sha256 data).as_ref.length = 32) ∧
    (∀ acc : List Nat, ∃ out, HashContext.finish (.sha1Ctx acc) = .Sha1 out ∧
      out.length = 20) ∧
    (∀ acc : List Nat, ∃ out, HashContext.finish (.sha256Ctx acc) = .Sha256 out ∧
      out.length = 32) := by
  refine ⟨fun data => ⟨sha1 data, rfl, sha1_length data, ?_⟩,
          fun data => ⟨sha256 data, rfl, sha256_length data, ?_⟩,
          fun acc => ⟨sha1 acc, rfl, sha1_length acc⟩,
          fun acc => ⟨sha256 acc, rfl, sha256_length acc⟩⟩
  · exact sha1_length data
  · exact sha256_length data

/-- C2: `RsaPublicKey::verify` called with the `Ed25519Sha256` algorithm tag
returns `IncompatibleAlgorithms` for every header list, signature and
canonicalization, and `Ed25519PublicKey::verify` does the same for the
`RsaSha1` and `RsaSha256` tags — in both cases independently of the
underlying crypto primitive, i.e. without attempting verification. -/
theorem incompatible_algorithms_distinct_error :
    (∀ (key : RsaPublicKey) (headers : List (List Nat × List Nat))
       (signature : List Nat) (canon : Canonicalization),
       RsaPublicKey.verify key headers signature canon .Ed25519Sha256 =
         .error .IncompatibleAlgorithms) ∧
    (∀ (prim : Ed25519Prim) (key : Ed25519PublicKey)
       (headers : List (List Nat × List Nat)) (signature : List Nat)
       (canon : Canonicalization) (alg : Algorithm),
       alg = .RsaSha1 ∨ alg = .RsaSha256 →
       Ed25519PublicKey.verify prim key headers signature canon alg =
         .error .IncompatibleAlgorithms) := by
  refine ⟨fun _ _ _ _ => rfl, fun prim key headers signature canon alg h => ?_⟩
  rcases h with rfl | rfl <;> rfl

/-- Witness for C2 at a concrete input. -/
theorem incompatible_algorithms_distinct_error_witness :
    Ed25519PublicKey.verify toyEd25519 ⟨List.replicate 32 1⟩ [] [] .Simple .RsaSha1 =
      .error .IncompatibleAlgorithms :=
  incompatible_algorithms_distinct_error.2 toyEd25519 ⟨List.replicate 32 1⟩ [] []
    .Simple .RsaSha1 (Or.inl rfl)

/-- C5: `is_within_pct` returns `true` when `pct == 100` and otherwise
returns `(((secs + counter) mod 2^64) * 11400714819323198485 mod 2^64)
mod 100 < pct`, where `counter` is the per-thread counter value before the
call and all arithmetic wraps modulo `2^64`. -/
theorem pct_sampler_arithmetic (pct secs counter : Nat) (hpct : pct < 256) :
    (pct = 100 → (is_within_pct pct secs counter).1 = true) ∧
    (pct ≠ 100 → (is_within_pct pct secs counter).1 =
      decide ((secs + counter) % 2 ^ 64 * 11400714819323198485 % 2 ^ 64 % 100 < pct)) := by
  constructor
  · intro h; simp [is_within_pct, h]
  · intro h; simp [is_within_pct, h, wrappingMul64, wrappingAdd64]

/-- Witness for C5 at a concrete input. -/
theorem pct_sampler_arithmetic_witness :
    (50 = 100 → (is_within_pct 50 3 4).1 = true) ∧
    (50 ≠ 100 → (is_within_pct 50 3 4).1 =
      decide ((3 + 4) % 2 ^ 64 * 11400714819323198485 % 2 ^ 64 % 100 < 50)) :=
  pct_sampler_arithmetic 50 3 4 (by decide)

/-- C9 counterexample: at counter value `2^64 - 1` a call with `pct < 100`
does not increment the per-thread counter by exactly one — the `u64` cell
wraps to `0`. -/
theorem pct_counter_wrap_cex :
    ¬ (is_within_pct 0 0 (2 ^ 64 - 1)).2 = (2 ^ 64 - 1) + 1 := by decide

/-- C9 (amended): `is_within_pct(0)` returns `false` for every clock value
and counter state; `is_within_pct(100)` returns `true` without reading the
clock or changing the per-thread counter; and every call with `pct < 100`
increments the per-thread counter by exactly one modulo `2^64` (so
consecutive calls use strictly increasing counter values until the `u64`
cell wraps). -/
theorem pct_sampler_edge_cases :
    (∀ secs counter, (is_within_pct 0 secs counter).1 = false) ∧
    (∀ secs counter, is_within_pct 100 secs counter = (true, counter)) ∧
    (∀ pct secs counter, pct < 100 →
      (is_within_pct pct secs counter).2 = (counter + 1) % 2 ^ 64) := by
  refine ⟨fun secs counter => ?_, fun secs counter => rfl,
          fun pct secs counter h => ?_⟩
  · simp [is_within_pct]
  · simp [is_within_pct, Nat.ne_of_lt h]

/-- Witness for C9 at a concrete input. -/
theorem pct_sampler_edge_cases_witness :
    (is_within_pct 7 5 11).2 = (11 + 1) % 2 ^ 64 :=
  pct_sampler_edge_cases.2.2 7 5 11 (by decide)

/-- C8: each signing key's `algorithm()` and associated hasher agree —
`RsaKey<Sha1>` reports `RsaSha1` and hashes with SHA-1, `RsaKey<Sha256>`
reports `RsaSha256` and hashes with SHA-256, `Ed25519Key` reports
`Ed25519Sha256` and hashes with SHA-256 — so every signing key's hasher is
exactly the hash algorithm implied by the algorithm identifier it reports. -/
theorem algorithm_fixes_hash :
    (∀ key : RsaKey, (SigningKey.rsaSha1 key).algorithm = .RsaSha1 ∧
      (SigningKey.rsaSha1 key).hasherAlg = .Sha1) ∧
    (∀ key : RsaKey, (SigningKey.rsaSha256 key).algorithm = .RsaSha256 ∧
      (SigningKey.rsaSha256 key).hasherAlg = .Sha256) ∧
    (∀ key : Ed25519Key, (SigningKey.ed25519 key).algorithm = .Ed25519Sha256 ∧
      (SigningKey.ed25519 key).hasherAlg = .Sha256) ∧
    (∀ key : SigningKey, key.hasherAlg = key.algorithm.hashAlgorithm ∧
      key.hasher.alg = key.algorithm.hashAlgorithm) := by
  refine ⟨fun _ => ⟨rfl, rfl⟩, fun _ => ⟨rfl, rfl⟩, fun _ => ⟨rfl, rfl⟩,
          fun key => ?_⟩
  cases key <;> exact ⟨rfl, rfl⟩

/-- C4: RSA verifying-key bytes are parsed by trying SPKI DER first and only
on failure PKCS#1 DER, erring with `CryptoError` exactly when both parses
fail; Ed25519 verifying-key bytes are parsed by the dalek raw 32-byte
public-key parser, erring with `CryptoError` exactly when it rejects. -/
theorem verifying_key_parse_fallback :
    (∀ (spkiDecode pkcs1Decode : List Nat → Except String RsaPublicKey)
       (bytes : List Nat) (key : RsaPublicKey),
       spkiDecode bytes = .ok key →
       RsaPublicKey.verifying_key_from_bytes spkiDecode pkcs1Decode bytes = .ok key) ∧
    (∀ spkiDecode pkcs1Decode bytes (e : String) (key : RsaPublicKey),
       spkiDecode bytes = .error e → pkcs1Decode bytes = .ok key →
       RsaPublicKey.verifying_key_from_bytes spkiDecode pkcs1Decode bytes = .ok key) ∧
    (∀ spkiDecode pkcs1Decode bytes (e e' : String),
       spkiDecode bytes = .error e → pkcs1Decode bytes = .error e' →
       RsaPublicKey.verifying_key_from_bytes spkiDecode pkcs1Decode bytes =
         .error (.CryptoError e')) ∧
    (∀ spkiDecode pkcs1Decode bytes,
       (RsaPublicKey.verifying_key_from_bytes spkiDecode pkcs1Decode bytes).isOk = false ↔
       ((spkiDecode bytes).isOk = false ∧ (pkcs1Decode bytes).isOk = false)) ∧
    (∀ (prim : Ed25519Prim) (bytes : List Nat) (key : List Nat),
       prim.parsePublic bytes = .ok key →
       Ed25519PublicKey.verifying_key_from_bytes prim bytes = .ok ⟨key⟩) ∧
    (∀ (prim : Ed25519Prim) (bytes : List Nat) (e : String),
       prim.parsePublic bytes = .error e →
       Ed25519PublicKey.verifying_key_from_bytes prim bytes =
         .error (.CryptoError e)) := by
  refine ⟨?_, ?_, ?_, ?_, ?_, ?_⟩
  · intro spkiDecode pkcs1Decode bytes key h
    simp [RsaPublicKey.verifying_key_from_bytes, h]
  · intro spkiDecode pkcs1Decode bytes e key h1 h2
    simp [RsaPublicKey.verifying_key_from_bytes, h1, h2]
  · intro spkiDecode pkcs1Decode bytes e e' h1 h2
    simp [RsaPublicKey.verifying_key_from_bytes, h1, h2]
  · intro spkiDecode pkcs1Decode bytes
    rcases h1 : spkiDecode bytes with e | key <;>
      rcases h2 : pkcs1Decode bytes with e' | key' <;>
      simp [RsaPublicKey.verifying_key_from_bytes, h1, h2, Except.isOk, Except.toBool]
  · intro prim bytes key h
    simp [Ed25519PublicKey.verifying_key_from_bytes, h]
  · intro prim bytes e h
    simp [Ed25519PublicKey.verifying_key_from_bytes, h]

/-- Witness for C4 at concrete decoders and inputs. -/
theorem verifying_key_parse_fallback_witness :
    Ed25519PublicKey.verifying_key_from_bytes toyEd25519 (List.replicate 31 0) =
      .error (.CryptoError "An error occurred while parsing a public key") :=
  verifying_key_parse_fallback.2.2.2.2.2 toyEd25519 (List.replicate 31 0)
    "An error occurred while parsing a public key" rfl

/-- C10: `Ed25519PublicKey::verify` hashes the canonicalized headers with
SHA-256 and hands `verify_strict` that 32-byte digest (never the raw header
stream); signature bytes the dalek parser rejects yield `CryptoError`, while
a parsed signature failing strict verification yields `FailedVerification`. -/
theorem ed25519_verify_discrimination
    (prim : Ed25519Prim) (key : Ed25519PublicKey)
    (headers : List (List Nat × List Nat)) (signature : List Nat)
    (canon : Canonicalization) :
    (∀ e : String, prim.parse signature = .error e →
      Ed25519PublicKey.verify prim key headers signature canon .Ed25519Sha256 =
        .error (.CryptoError e)) ∧
    (∀ s : List Nat, prim.parse signature = .ok s →
      Ed25519PublicKey.verify prim key headers signature canon .Ed25519Sha256 =
        (if prim.verify_strict key.key (sha256 (canonicalizeHeaders canon headers)) s
         then .ok () else .error .FailedVerification)) ∧
    (sha256 (canonicalizeHeaders canon headers)).length = 32 := by
  refine ⟨?_, ?_, sha256_length _⟩
  · intro e h
    simp [Ed25519PublicKey.verify, h, Canonicalization.hash_headers,
      HashAlgorithm.hash, HashOutput.as_ref]
  · intro s h
    simp [Ed25519PublicKey.verify, h, Canonicalization.hash_headers,
      HashAlgorithm.hash, HashOutput.as_ref]

/-- Witness for C10: malformed signature bytes (wrong length for the dalek
parser) produce `CryptoError`. -/
theorem ed25519_verify_discrimination_witness :
    Ed25519PublicKey.verify toyEd25519 ⟨List.replicate 32 1⟩ [] [0] .Relaxed
      .Ed25519Sha256 =
      .error (.CryptoError "signature error: Cannot use scalar with high-bit set") :=
  (ed25519_verify_discrimination toyEd25519 ⟨List.replicate 32 1⟩ [] [0] .Relaxed).1
    "signature error: Cannot use scalar with high-bit set" rfl

/-- C3 counterexample: a handle derived through `Clone` does not observe a
TXT cache entry inserted afterwards through the original handle — the
`Clone` impl rebuilds each cache as a by-value copy — while the original
handle itself does observe it. -/
theorem resolver_clone_not_shared_cex :
    getTxt (insertTxt (cloneResolver ⟨[ResolverCaches.empty]⟩ 0).1 0 "k" 7)
        (cloneResolver ⟨[ResolverCaches.empty]⟩ 0).2 "k" = none ∧
    getTxt (insertTxt (cloneResolver ⟨[ResolverCaches.empty]⟩ 0).1 0 "k" 7)
        0 "k" = some 7 := by
  constructor <;> rfl

theorem getD_set_self (l : List ResolverCaches) (i : Nat) (a : ResolverCaches)
    (h : i < l.length) : (l.set i a).getD i ResolverCaches.empty = a := by
  simp [List.getD_eq_getElem?_getD, List.getElem?_set_self', List.getElem?_eq_getElem h]

theorem getD_append_len (l : List ResolverCaches) (a : ResolverCaches) :
    (l ++ [a]).getD l.length ResolverCaches.empty = a := by
  simp [List.getD_append_right]

/-- C3 (amended): all verifications using the same `Resolver` (handles
aliasing one heap cell, through `&` or an `Arc`) observe the same cache
contents: an entry inserted through the handle is observed through it.
A handle derived via `Clone` receives a snapshot: it observes exactly the
entries present at clone time, and an entry inserted through the original
handle after the clone is not observed through the cloned handle. -/
theorem resolver_cache_sharing :
    (∀ (heap : ResolverHeap) (r : Nat) (k : String) (v : Nat),
       r < heap.store.length →
       getTxt (insertTxt heap r k v) r k = some v) ∧
    (∀ (heap : ResolverHeap) (r : Nat) (k : String),
       getTxt (cloneResolver heap r).1 (cloneResolver heap r).2 k = getTxt heap r k) ∧
    (∀ (heap : ResolverHeap) (r : Nat) (k : String) (v : Nat),
       r < heap.store.length →
       getTxt (insertTxt (cloneResolver heap r).1 r k v) (cloneResolver heap r).2 k =
         getTxt heap r k) := by
  refine ⟨?_, ?_, ?_⟩
  · intro heap r k v h
    simp only [getTxt, insertTxt]
    rw [getD_set_self _ _ _ h]
    simp [List.lookup]
  · intro heap r k
    simp only [getTxt, cloneResolver]
    rw [getD_append_len]
  · intro heap r k v h
    simp only [getTxt, insertTxt, cloneResolver]
    rw [List.set_append_left _ _ h]
    have hlen : (heap.store.set r
        (let c := (heap.store ++ [heap.store.getD r ResolverCaches.empty]).getD r
            ResolverCaches.empty
         { c with cache_txt := (k, v) :: c.cache_txt })).length = heap.store.length := by
      simp
    rw [← hlen, getD_append_len]

/-- Witness for C3 at a concrete heap. -/
theorem resolver_cache_sharing_witness :
    getTxt (insertTxt ⟨[ResolverCaches.empty]⟩ 0 "example.org" 7) 0 "example.org" =
      some 7 :=
  resolver_cache_sharing.1 ⟨[ResolverCaches.empty]⟩ 0 "example.org" 7 (by decide)

/-- C1: sign/verify round trip at the crypto layer. For each signing key
type with its matching public key and for every header sequence and
canonicalization choice, signing the hash of the canonicalized headers with
`SigningKey::sign` and verifying the result over the same headers with the
signing key's `algorithm()` returns `Ok(())`; the RSA signature is produced
and checked through the explicit PKCS#1 v1.5 encoding. The hypotheses state
the external crates' correctness at the one message involved: for RSA that
the private/public permutations invert on the encoded message (and that the
modulus is long enough), for Ed25519 that dalek's parse and strict-verify
accept dalek's own signature over the digest. -/
theorem sign_verify_roundtrip :
    (∀ (prim : Ed25519Prim) (key : RsaKey) (p : RsaPublicKey)
       (headers : List (List Nat × List Nat)) (canon : Canonicalization),
       p.n = key.n →
       (digestInfoSha1 ++ sha1 (canonicalizeHeaders canon headers)).length + 11 ≤
         byteLength key.n →
       powMod (powMod (os2ip (emsaBody digestInfoSha1
           (sha1 (canonicalizeHeaders canon headers)) (byteLength key.n)))
           key.d key.n) p.e p.n =
         os2ip (emsaBody digestInfoSha1 (sha1 (canonicalizeHeaders canon headers))
           (byteLength key.n)) →
       roundTrip
         (SigningKey.sign prim (.rsaSha1 key)
           (Canonicalization.hash_headers (SigningKey.hasherAlg (.rsaSha1 key))
             canon headers))
         (fun sig => RsaPublicKey.verify p headers sig canon
           (SigningKey.algorithm (.rsaSha1 key))) = .ok ()) ∧
    (∀ (prim : Ed25519Prim) (key : RsaKey) (p : RsaPublicKey)
       (headers : List (List Nat × List Nat)) (canon : Canonicalization),
       p.n = key.n →
       (digestInfoSha256 ++ sha256 (canonicalizeHeaders canon headers)).length + 11 ≤
         byteLength key.n →
       powMod (powMod (os2ip (emsaBody digestInfoSha256
           (sha256 (canonicalizeHeaders canon headers)) (byteLength key.n)))
           key.d key.n) p.e p.n =
         os2ip (emsaBody digestInfoSha256 (sha256 (canonicalizeHeaders canon headers))
           (byteLength key.n)) →
       roundTrip
         (SigningKey.sign prim (.rsaSha256 key)
           (Canonicalization.hash_headers (SigningKey.hasherAlg (.rsaSha256 key))
             canon headers))
         (fun sig => RsaPublicKey.verify p headers sig canon
           (SigningKey.algorithm (.rsaSha256 key))) = .ok ()) ∧
    (∀ (prim : Ed25519Prim) (kp : Ed25519Key) (p : Ed25519PublicKey)
       (headers : List (List Nat × List Nat)) (canon : Canonicalization)
       (s : List Nat),
       prim.parse (prim.sign kp.publ kp.secret
         (sha256 (canonicalizeHeaders canon headers))) = .ok s →
       prim.verify_strict p.key (sha256 (canonicalizeHeaders canon headers)) s = true →
       roundTrip
         (SigningKey.sign prim (.ed25519 kp)
           (Canonicalization.hash_headers (SigningKey.hasherAlg (.ed25519 kp))
             canon headers))
         (fun sig => Ed25519PublicKey.verify prim p headers sig canon
           (SigningKey.algorithm (.ed25519 kp))) = .ok ()) := by
  refine ⟨?_, ?_, ?_⟩
  · intro prim key p headers canon hn hfit hRT
    obtain ⟨sig, hsig, hver⟩ :=
      rsa_sign_verify key p digestInfoSha1 (sha1 (canonicalizeHeaders canon headers))
        hn (by decide) (sha1_lt _) hfit hRT
    simp only [SigningKey.sign, SigningKey.hasherAlg, SigningKey.algorithm,
      Canonicalization.hash_headers, HashAlgorithm.hash, HashOutput.as_ref]
    rw [hsig]
    simp [roundTrip, RsaPublicKey.verify, Canonicalization.hash_headers,
      HashAlgorithm.hash, HashOutput.as_ref, hver]
  · intro prim key p headers canon hn hfit hRT
    obtain ⟨sig, hsig, hver⟩ :=
      rsa_sign_verify key p digestInfoSha256 (sha256 (canonicalizeHeaders canon headers))
        hn (by decide) (sha256_lt _) hfit hRT
    simp only [SigningKey.sign, SigningKey.hasherAlg, SigningKey.algorithm,
      Canonicalization.hash_headers, HashAlgorithm.hash, HashOutput.as_ref]
    rw [hsig]
    simp [roundTrip, RsaPublicKey.verify, Canonicalization.hash_headers,
      HashAlgorithm.hash, HashOutput.as_ref, hver]
  · intro prim kp p headers canon s hp hv
    simp [SigningKey.sign, SigningKey.hasherAlg, SigningKey.algorithm,
      Canonicalization.hash_headers, HashAlgorithm.hash, HashOutput.as_ref,
      roundTrip, Ed25519PublicKey.verify, hp, hv]

set_option maxRecDepth 100000

/-- The modulus of a concrete 512-bit RSA key pair used by witnesses. -/
def rsaTestN : Nat :=
  9083273383894334303628795971880728634069119298608230459125349596716750207424778700467063035987561936281268548587227506963213167874474330174751662315261261

/-- The private exponent of the concrete RSA key pair. -/
def rsaTestD : Nat :=
  291886625058844134510921224907774455702115831406212267069258376957832612674308888932728598970292294198088279264081285081620015837466982570365423674368473

/-- The public exponent of the concrete RSA key pair. -/
def rsaTestE : Nat := 65537

/-- Witness for C1 at concrete inputs: the RSA-SHA256 round trip with a real
512-bit key (the permutation hypothesis checked by computation) and the
Ed25519 round trip with the concrete stand-in primitive. -/
theorem sign_verify_roundtrip_witness :
    roundTrip
      (SigningKey.sign toyEd25519 (.rsaSha256 ⟨rsaTestN, rsaTestD⟩)
        (Canonicalization.hash_headers
          (SigningKey.hasherAlg (.rsaSha256 ⟨rsaTestN, rsaTestD⟩)) .Simple []))
      (fun sig => RsaPublicKey.verify ⟨rsaTestN, rsaTestE⟩ [] sig .Simple
        (SigningKey.algorithm (.rsaSha256 ⟨rsaTestN, rsaTestD⟩))) = .ok () ∧
    roundTrip
      (SigningKey.sign toyEd25519 (.ed25519 ⟨List.replicate 32 1, List.replicate 32 2⟩)
        (Canonicalization.hash_headers
          (SigningKey.hasherAlg (.ed25519 ⟨List.replicate 32 1, List.replicate 32 2⟩))
          .Relaxed []))
      (fun sig => Ed25519PublicKey.verify toyEd25519 ⟨List.replicate 32 1⟩ [] sig
        .Relaxed
        (SigningKey.algorithm (.ed25519 ⟨List.replicate 32 1, List.replicate 32 2⟩))) =
      .ok () :=
  ⟨sign_verify_roundtrip.2.1 toyEd25519 ⟨rsaTestN, rsaTestD⟩ ⟨rsaTestN, rsaTestE⟩
      [] .Simple rfl (by decide) (by decide),
   sign_verify_roundtrip.2.2 toyEd25519 ⟨List.replicate 32 1, List.replicate 32 2⟩
      ⟨List.replicate 32 1⟩ [] .Relaxed
      (List.replicate 32 1 ++ sha256 (canonicalizeHeaders .Relaxed [])) rfl (by decide)⟩

/-! ## Distinctness of the error displays (C7 machinery)

Every `Error` variant is recoverable from its `Display` message: the first
eleven characters separate all variants except the four `Unsupported*`
ones, which carry no payload and are separated by their full constant
message. -/

/-- The constructor index of an `Error` value. -/
def variantIdx : Error → Nat
  | .ParseError => 0
  | .MissingParameters => 1
  | .NoHeadersFound => 2
  | .CryptoError _ => 3
  | .Io _ => 4
  | .Base64 => 5
  | .UnsupportedVersion => 6
  | .UnsupportedAlgorithm => 7
  | .UnsupportedCanonicalization => 8
  | .UnsupportedKeyType => 9
  | .FailedBodyHashMatch => 10
  | .FailedVerification => 11
  | .FailedAuidMatch => 12
  | .RevokedPublicKey => 13
  | .IncompatibleAlgorithms => 14
  | .SignatureExpired => 15
  | .SignatureLength => 16
  | .DnsError _ => 17
  | .DnsRecordNotFound _ => 18
  | .ArcChainTooLong => 19
  | .ArcInvalidInstance _ => 20
  | .ArcInvalidCV => 21
  | .ArcHasHeaderTag => 22
  | .ArcBrokenChain => 23
  | .NotAligned => 24
  | .InvalidRecordType => 25

/-- Classify a display message by its first eleven characters (and, for the
four payload-free `Unsupported*` messages that share them, by the full
message). -/
def classOfList (c : List Char) (full : String) : Nat :=
  if c = ("Parse error").data then 0
  else if c = ("Missing par").data then 1
  else if c = ("No headers ").data then 2
  else if c = ("Cryptograph").data then 3
  else if c = ("I/O error: ").data then 4
  else if c = ("Base64 enco").data then 5
  else if c = ("Unsupported").data then
    if full = "Unsupported version in DKIM Signature" then 6
    else if full = "Unsupported algorithm in DKIM Signature" then 7
    else if full = "Unsupported canonicalization method in DKIM Signature" then 8
    else 9
  else if c = ("Calculated ").data then 10
  else if c = ("Signature v").data then 11
  else if c = ("AUID does n").data then 12
  else if c = ("Public key ").data then 13
  else if c = ("Incompatibl").data then 14
  else if c = ("Signature e").data then 15
  else if c = ("Insecure 'l").data then 16
  else if c = ("DNS resolut").data then 17
  else if c = ("DNS record ").data then 18
  else if c = ("Too many AR").data then 19
  else if c = ("Invalid 'i=").data then 20
  else if c = ("Invalid 'cv").data then 21
  else if c = ("Invalid 'h=").data then 22
  else if c = ("Broken or m").data then 23
  else if c = ("Policy not ").data then 24
  else if c = ("Invalid rec").data then 25
  else 99

/-- The class of a display message. -/
def msgClass (s : String) : Nat := classOfList (s.data.take 11) s

theorem take11_append (p s : String) (h : 11 ≤ p.data.length) :
    (p ++ s).data.take 11 = p.data.take 11 := by
  show (p.data ++ s.data).take 11 = p.data.take 11
  exact List.take_append_of_le_length h

theorem append_ne_empty (p s : String) (h : p.data ≠ []) : p ++ s ≠ "" := by
  intro he
  have hd : (p ++ s).data = ("" : String).data := by rw [he]
  simp only [String.data_append] at hd
  simp at hd
  exact h hd.1

/-- Every error message determines its variant. -/
theorem msg_classified (e : Error) : msgClass e.toMessage = variantIdx e := by
  cases e with
  | CryptoError msg =>
    simp only [Error.toMessage, variantIdx, msgClass]
    rw [take11_append _ _ (by decide)]
    rfl
  | Io msg =>
    simp only [Error.toMessage, variantIdx, msgClass]
    rw [take11_append _ _ (by decide)]
    rfl
  | DnsError msg =>
    simp only [Error.toMessage, variantIdx, msgClass]
    rw [take11_append _ _ (by decide)]
    rfl
  | DnsRecordNotFound code =>
    simp only [Error.toMessage, variantIdx, msgClass]
    rw [take11_append _ _ (by decide)]
    rfl
  | ArcInvalidInstance i =>
    simp only [Error.toMessage, variantIdx, msgClass]
    rw [String.append_assoc, take11_append _ _ (by decide)]
    rfl
  | _ => rfl

/-- C7: every `Error` variant has a non-empty `Display` message; messages of
different variants are distinct for all payload values; values of different
variants are never equal; and values of the same payload-carrying variant
are equal exactly when their payloads (message string, response code, or
instance number) are equal. -/
theorem error_display_distinct :
    (∀ e : Error, e.toMessage ≠ "") ∧
    (∀ e1 e2 : Error, variantIdx e1 ≠ variantIdx e2 →
      e1.toMessage ≠ e2.toMessage) ∧
    (∀ e1 e2 : Error, variantIdx e1 ≠ variantIdx e2 → e1 ≠ e2) ∧
    (∀ s t : String, Error.CryptoError s = Error.CryptoError t ↔ s = t) ∧
    (∀ s t : String, Error.Io s = Error.Io t ↔ s = t) ∧
    (∀ s t : String, Error.DnsError s = Error.DnsError t ↔ s = t) ∧
    (∀ c c' : ResponseCode,
      Error.DnsRecordNotFound c = Error.DnsRecordNotFound c' ↔ c = c') ∧
    (∀ i j : Nat, Error.ArcInvalidInstance i = Error.ArcInvalidInstance j ↔ i = j) := by
  refine ⟨?_, ?_, ?_, ?_, ?_, ?_, ?_, ?_⟩
  · intro e
    cases e with
    | CryptoError msg => exact append_ne_empty _ _ (by decide)
    | Io msg => exact append_ne_empty _ _ (by decide)
    | DnsError msg => exact append_ne_empty _ _ (by decide)
    | DnsRecordNotFound code => exact append_ne_empty _ _ (by decide)
    | ArcInvalidInstance i =>
      rw [Error.toMessage, String.append_assoc]
      exact append_ne_empty _ _ (by decide)
    | _ => decide
  · intro e1 e2 hv heq
    exact hv (by rw [← msg_classified e1, ← msg_classified e2, heq])
  · intro e1 e2 hv heq
    exact hv (congrArg variantIdx heq)
  · intro s t
    exact ⟨fun h => by injection h, fun h => by rw [h]⟩
  · intro s t
    exact ⟨fun h => by injection h, fun h => by rw [h]⟩
  · intro s t
    exact ⟨fun h => by injection h, fun h => by rw [h]⟩
  · intro c c'
    exact ⟨fun h => by injection h, fun h => by rw [h]⟩
  · intro i j
    exact ⟨fun h => by injection h, fun h => by rw [h]⟩

/-- Witness for C7 at concrete errors: differing variants (here with
payloads) give differing messages and differing values. -/
theorem error_display_distinct_witness :
    Error.toMessage (.CryptoError "x") ≠ Error.toMessage (.Io "x") ∧
    (Error.CryptoError "x" : Error) ≠ .Io "x" :=
  ⟨error_display_distinct.2.1 (.CryptoError "x") (.Io "x") (by decide),
   error_display_distinct.2.2.1 (.CryptoError "x") (.Io "x") (by decide)⟩

end MailAuth
